import Mathlib

/-!
Shallow embedding of `lib/review.py`: a small ORM class `Review` over a
sqlite table `reviews(id INTEGER PRIMARY KEY, year, summary, employee_id)`,
with validating property setters, an identity cache `Review.all` keyed by
primary key, and CRUD operations `save`, `create`, `instance_from_db`,
`find_by_id`, `update`, `delete`, `get_all`.

Python values flowing through the setters are dynamically typed; we model
them with `PyVal`.  All errors the source raises are `ValueError` with a
message; we model them as `PyErr.valueError msg`.  Object identity (the
point of the identity cache) is modelled with an explicit heap: a list of
`ReviewObj` records indexed by natural-number references; `Review.all`
becomes an association list from integer primary key to reference.  The
database is a list of rows plus the list of ids present in the external
`employees` table.  sqlite assigns a fresh `INTEGER PRIMARY KEY` rowid as
one more than the largest rowid currently in the table (1 for an empty
table); `lastrowid` reports it.
-/

namespace ReviewOrm

/-- A Python value as seen by the setters: an int, a str, or None.
(Other Python types would behave like `vNone` for every `isinstance`
check used by this class.) -/
inductive PyVal where
  | vInt (n : Int)
  | vStr (s : String)
  | vNone
deriving DecidableEq, Repr

/-- A raised Python exception.  The source raises only `ValueError`,
with distinct messages at each raise site. -/
inductive PyErr where
  | valueError (msg : String)
deriving DecidableEq, Repr

instance (ε α : Type) [DecidableEq ε] [DecidableEq α] : DecidableEq (Except ε α) :=
  fun a b =>
    match a, b with
    | .ok x, .ok y =>
      if h : x = y then .isTrue (congrArg Except.ok h)
      else .isFalse (fun hc => h (Except.ok.inj hc))
    | .error x, .error y =>
      if h : x = y then .isTrue (congrArg Except.error h)
      else .isFalse (fun hc => h (Except.error.inj hc))
    | .ok _, .error _ => .isFalse (fun hc => Except.noConfusion hc)
    | .error _, .ok _ => .isFalse (fun hc => Except.noConfusion hc)

/-- `ValueError("id must be an integer or None")` from the `id` setter. -/
def idTypeErr : PyErr := .valueError "id must be an integer or None"

/-- `ValueError("year must be an integer")` from the `year` setter. -/
def yearTypeErr : PyErr := .valueError "year must be an integer"

/-- `ValueError("year must be >= 2000")` from the `year` setter. -/
def yearRangeErr : PyErr := .valueError "year must be >= 2000"

/-- `ValueError("summary must be a non-empty string")` from the `summary` setter. -/
def summaryErr : PyErr := .valueError "summary must be a non-empty string"

/-- `ValueError("employee_id must be an integer")` from the `employee_id` setter. -/
def empTypeErr : PyErr := .valueError "employee_id must be an integer"

/-- `ValueError("employee_id must reference a persisted Employee")` from the
`employee_id` setter. -/
def empRefErr : PyErr := .valueError "employee_id must reference a persisted Employee"

/-- `ValueError("cannot update a Review without an id")` from `update`. -/
def updateStateErr : PyErr := .valueError "cannot update a Review without an id"

/-- Error for dereferencing a reference that is not in the heap; this
cannot happen to Python code (one always holds a real object), so every
theorem hypothesises a live reference. -/
def danglingRefErr : PyErr := .valueError "dangling reference"

/-- The private attributes of a `Review` instance: `_id`, `_year`,
`_summary`, `_employee_id`. -/
structure ReviewObj where
  _id : PyVal
  _year : PyVal
  _summary : PyVal
  _employee_id : PyVal
deriving DecidableEq, Repr

/-- One row of the `reviews` table.  `id INTEGER PRIMARY KEY` forces the
key to be an integer; the remaining columns hold whatever was bound at
insert/update time. -/
structure Row where
  id : Int
  year : PyVal
  summary : PyVal
  employee_id : PyVal
deriving DecidableEq, Repr

/-- The database: the `reviews` table and the ids present in the external
`employees` table (the only part of it this class reads). -/
structure DB where
  reviews : List Row
  employees : List Int
deriving DecidableEq, Repr

/-- A reference into the heap of live `Review` instances. -/
abbrev Ref := Nat

/-- Whole-program state: the heap of live instances, the identity cache
`Review.all` (primary key to reference), and the database. -/
structure State where
  heap : List ReviewObj
  cache : List (Int × Ref)
  db : DB
deriving DecidableEq, Repr

/-- `Review.all.get(k)`: dictionary lookup. -/
def dget (d : List (Int × Ref)) (k : Int) : Option Ref :=
  match d with
  | [] => none
  | (k', v) :: rest => if k' = k then some v else dget rest k

/-- `Review.all[k] = v`: dictionary assignment (replace the binding of `k`
if present, else append; dictionary keys are unique). -/
def dset (d : List (Int × Ref)) (k : Int) (v : Ref) : List (Int × Ref) :=
  match d with
  | [] => [(k, v)]
  | (k', v') :: rest => if k' = k then (k, v) :: rest else (k', v') :: dset rest k v

/-- `Review.all.pop(k, None)`: remove the binding of `k` (dictionary keys
are unique, so removing every binding of `k` is the same operation). -/
def dpop (d : List (Int × Ref)) (k : Int) : List (Int × Ref) :=
  match d with
  | [] => []
  | (k', v') :: rest => if k' = k then dpop rest k else (k', v') :: dpop rest k

/-- The `id` setter: accepts an integer or `None`, else raises. -/
def set_id (v : PyVal) (o : ReviewObj) : Except PyErr ReviewObj :=
  match v with
  | .vInt _ => .ok { o with _id := v }
  | .vNone => .ok { o with _id := v }
  | _ => .error idTypeErr

/-- The `year` setter: accepts an integer `>= 2000`, else raises. -/
def set_year (v : PyVal) (o : ReviewObj) : Except PyErr ReviewObj :=
  match v with
  | .vInt n => if n < 2000 then .error yearRangeErr else .ok { o with _year := v }
  | _ => .error yearTypeErr

/-- Python `str.strip()`: remove leading and trailing whitespace.
(Structural recursion over the character list, so that it evaluates.) -/
def pyStrip (s : String) : String :=
  ⟨((s.data.dropWhile Char.isWhitespace).reverse.dropWhile Char.isWhitespace).reverse⟩

/-- The `summary` setter: accepts a string that is non-empty after
stripping whitespace, else raises; the string is stored verbatim. -/
def set_summary (v : PyVal) (o : ReviewObj) : Except PyErr ReviewObj :=
  match v with
  | .vStr s => if pyStrip s = "" then .error summaryErr else .ok { o with _summary := v }
  | _ => .error summaryErr

/-- The `employee_id` setter: accepts an integer for which
`SELECT id FROM employees WHERE id = ?` returns a row, else raises
(one message for the wrong type, another for the missing employee). -/
def set_employee_id (db : DB) (v : PyVal) (o : ReviewObj) : Except PyErr ReviewObj :=
  match v with
  | .vInt n =>
    if db.employees.contains n then .ok { o with _employee_id := v }
    else .error empRefErr
  | _ => .error empTypeErr

/-- `Review.__init__(year, summary, employee_id, id=None)`: start from all
attributes `None`, then run the four setters in source order
(`id`, `year`, `summary`, `employee_id`). -/
def reviewInit (db : DB) (year summary employee_id id : PyVal) :
    Except PyErr ReviewObj :=
  let o0 : ReviewObj := ⟨.vNone, .vNone, .vNone, .vNone⟩
  match set_id id o0 with
  | .error e => .error e
  | .ok o1 =>
    match set_year year o1 with
    | .error e => .error e
    | .ok o2 =>
      match set_summary summary o2 with
      | .error e => .error e
      | .ok o3 => set_employee_id db employee_id o3

/-- The rowid sqlite assigns to an `INSERT` into a table whose
`INTEGER PRIMARY KEY` is not supplied: one more than the largest rowid
currently in the table, or 1 when the table is empty. -/
def nextRowId (rows : List Row) : Int :=
  (rows.foldr (fun r m => max r.id m) 0) + 1

/-- `Review.save(self)`: no-op returning `self` when `id` is not `None`;
otherwise `INSERT` the three fields, commit, set `self.id` to
`lastrowid` (through the `id` setter), and cache the instance. -/
def save (ref : Ref) (s : State) : Except PyErr Ref × State :=
  match s.heap[ref]? with
  | none => (.error danglingRefErr, s)
  | some obj =>
    if obj._id = PyVal.vNone then
      let newId := nextRowId s.db.reviews
      let row : Row := ⟨newId, obj._year, obj._summary, obj._employee_id⟩
      let s1 : State := { s with db := { s.db with reviews := s.db.reviews ++ [row] } }
      match set_id (.vInt newId) obj with
      | .error e => (.error e, s1)
      | .ok obj' =>
        (.ok ref,
          { s1 with
            heap := s1.heap.set ref obj',
            cache := dset s1.cache newId ref })
    else
      (.ok ref, s)

/-- Raw construction `Review(year, summary, employee_id, id)`: on success
the new instance is allocated at the end of the heap; on a validation
error no instance survives. -/
def newOp (year summary employee_id id : PyVal) (s : State) : Except PyErr Ref × State :=
  match reviewInit s.db year summary employee_id id with
  | .error e => (.error e, s)
  | .ok obj => (.ok s.heap.length, { s with heap := s.heap ++ [obj] })

/-- `Review.create(year, summary, employee_id)`: construct then `save`. -/
def createOp (year summary employee_id : PyVal) (s : State) : Except PyErr Ref × State :=
  match newOp year summary employee_id .vNone s with
  | (.error e, s') => (.error e, s')
  | (.ok ref, s') => save ref s'

/-- `Review.instance_from_db(row)`: if the row's id is cached, write the
row's three non-id fields directly into the cached instance (bypassing
the setters) and return it; otherwise construct (validating), cache and
return a new instance. -/
def instance_from_db (row : Row) (s : State) : Except PyErr Ref × State :=
  match dget s.cache row.id with
  | some ref =>
    match s.heap[ref]? with
    | none => (.ok ref, s)
    | some obj =>
      let obj' : ReviewObj :=
        { obj with _year := row.year, _summary := row.summary, _employee_id := row.employee_id }
      (.ok ref, { s with heap := s.heap.set ref obj' })
  | none =>
    match reviewInit s.db row.year row.summary row.employee_id (.vInt row.id) with
    | .error e => (.error e, s)
    | .ok obj =>
      (.ok s.heap.length,
        { s with heap := s.heap ++ [obj], cache := dset s.cache row.id s.heap.length })

/-- `Review.find_by_id(id)`: `SELECT ... WHERE id = ?`, `fetchone`, then
`instance_from_db` on the row, or `None` when no row matches. -/
def find_by_id (k : Int) (s : State) : Except PyErr (Option Ref) × State :=
  match s.db.reviews.find? (fun row => row.id = k) with
  | some row =>
    match instance_from_db row s with
    | (.error e, s') => (.error e, s')
    | (.ok ref, s') => (.ok (some ref), s')
  | none => (.ok none, s)

/-- `Review.update(self)`: raise when `id` is `None`; otherwise
`UPDATE ... WHERE id = ?` with the current field values, commit, and
re-register the instance in the cache. -/
def update (ref : Ref) (s : State) : Except PyErr Unit × State :=
  match s.heap[ref]? with
  | none => (.error danglingRefErr, s)
  | some obj =>
    match obj._id with
    | .vNone => (.error updateStateErr, s)
    | idv =>
      let rows := s.db.reviews.map (fun row =>
        if PyVal.vInt row.id = idv then
          { row with year := obj._year, summary := obj._summary,
                     employee_id := obj._employee_id }
        else row)
      -- `type(self).all[self.id] = self`; the id setter guarantees a
      -- non-None `_id` is an integer, so the catch-all branch is unreachable.
      let cache := match idv with
        | .vInt k => dset s.cache k ref
        | _ => s.cache
      (.ok (), { s with db := { s.db with reviews := rows }, cache := cache })

/-- `Review.delete(self)`: return when `id` is `None`; otherwise
`DELETE ... WHERE id = ?`, commit, pop the id from the cache, and set
`self.id = None` (through the setter). -/
def delete (ref : Ref) (s : State) : Except PyErr Unit × State :=
  match s.heap[ref]? with
  | none => (.error danglingRefErr, s)
  | some obj =>
    match obj._id with
    | .vNone => (.ok (), s)
    | idv =>
      let rows := s.db.reviews.filter (fun row => ¬ PyVal.vInt row.id = idv)
      let cache := match idv with
        | .vInt k => dpop s.cache k
        | _ => s.cache
      match set_id .vNone obj with
      | .error e => (.error e, s)
      | .ok obj' =>
        (.ok (), { s with heap := s.heap.set ref obj',
                          cache := cache,
                          db := { s.db with reviews := rows } })

/-- Hydrate a list of rows in order, as `get_all`'s comprehension does. -/
def hydrateRows (rows : List Row) (s : State) : Except PyErr (List Ref) × State :=
  match rows with
  | [] => (.ok [], s)
  | row :: rest =>
    match instance_from_db row s with
    | (.error e, s') => (.error e, s')
    | (.ok ref, s') =>
      match hydrateRows rest s' with
      | (.error e, s'') => (.error e, s'')
      | (.ok refs, s'') => (.ok (ref :: refs), s'')

/-- `Review.get_all()`: fetch every row, hydrate each via
`instance_from_db`, in storage order. -/
def get_all (s : State) : Except PyErr (List Ref) × State :=
  hydrateRows s.db.reviews s

/-- The `year` constraint the setter enforces: an integer `>= 2000`. -/
def validYearB (v : PyVal) : Bool :=
  match v with
  | .vInt n => decide (2000 ≤ n)
  | _ => false

/-- The `summary` constraint the setter enforces: a string that is
non-empty after stripping whitespace. -/
def validSummaryB (v : PyVal) : Bool :=
  match v with
  | .vStr s => !(pyStrip s = "")
  | _ => false

/-- The `employee_id` constraint the setter enforces: an integer present
in the `employees` table. -/
def validEmpB (emps : List Int) (v : PyVal) : Bool :=
  match v with
  | .vInt n => emps.contains n
  | _ => false

/-- The error the `year` setter raises for an invalid value: the range
message for an integer below 2000, the type message otherwise. -/
def yearErrFor (v : PyVal) : PyErr :=
  match v with
  | .vInt _ => yearRangeErr
  | _ => yearTypeErr

/-- The error the `employee_id` setter raises for an invalid value: the
reference message for an integer with no matching employee, the type
message otherwise. -/
def empErrFor (v : PyVal) : PyErr :=
  match v with
  | .vInt _ => empRefErr
  | _ => empTypeErr

/-- An in-memory instance whose three data fields satisfy the setters'
constraints. -/
def objValid (emps : List Int) (o : ReviewObj) : Bool :=
  validYearB o._year && validSummaryB o._summary && validEmpB emps o._employee_id

/-- A stored row whose three data columns satisfy the setters'
constraints. -/
def rowValid (emps : List Int) (r : Row) : Bool :=
  validYearB r.year && validSummaryB r.summary && validEmpB emps r.employee_id

/-- Every live instance and every stored row is valid. -/
def stateValid (s : State) : Bool :=
  s.heap.all (objValid s.db.employees) && s.db.reviews.all (rowValid s.db.employees)

/-- One invocation of the public API of the `Review` class: construction,
the CRUD methods, or a property assignment through a setter. -/
inductive Op where
  | newR (year summary employee_id id : PyVal)
  | createR (year summary employee_id : PyVal)
  | saveR (ref : Ref)
  | findR (k : Int)
  | updateR (ref : Ref)
  | deleteR (ref : Ref)
  | getAllR
  | setIdR (ref : Ref) (v : PyVal)
  | setYearR (ref : Ref) (v : PyVal)
  | setSummaryR (ref : Ref) (v : PyVal)
  | setEmpR (ref : Ref) (v : PyVal)

/-- Run a setter against the instance at `ref` (a Python property
assignment `obj.year = v` and so on). -/
def setterOp (f : ReviewObj → Except PyErr ReviewObj) (ref : Ref) (s : State) :
    Except PyErr Unit × State :=
  match s.heap[ref]? with
  | none => (.error danglingRefErr, s)
  | some obj =>
    match f obj with
    | .error e => (.error e, s)
    | .ok obj' => (.ok (), { s with heap := s.heap.set ref obj' })

/-- The state after one API call; a raised exception keeps whatever
partial mutations the call made before raising, as in Python. -/
def step (op : Op) (s : State) : State :=
  match op with
  | .newR y sm e i => (newOp y sm e i s).2
  | .createR y sm e => (createOp y sm e s).2
  | .saveR ref => (save ref s).2
  | .findR k => (find_by_id k s).2
  | .updateR ref => (update ref s).2
  | .deleteR ref => (delete ref s).2
  | .getAllR => (get_all s).2
  | .setIdR ref v => (setterOp (set_id v) ref s).2
  | .setYearR ref v => (setterOp (set_year v) ref s).2
  | .setSummaryR ref v => (setterOp (set_summary v) ref s).2
  | .setEmpR ref v => (setterOp (set_employee_id s.db v) ref s).2

/-- The state after a sequence of API calls. -/
def run (ops : List Op) (s : State) : State :=
  match ops with
  | [] => s
  | op :: rest => run rest (step op s)

/-! ### Basic lemmas: the cache dictionary and the heap -/

theorem dget_dset_self (d : List (Int × Ref)) (k : Int) (v : Ref) :
    dget (dset d k v) k = some v := by
  induction d with
  | nil => simp [dget, dset]
  | cons p rest ih =>
    obtain ⟨k', v'⟩ := p
    by_cases h : k' = k <;> simp [dget, dset, h, ih]

theorem dget_dset_ne (d : List (Int × Ref)) (k k' : Int) (v : Ref) (h : k' ≠ k) :
    dget (dset d k v) k' = dget d k' := by
  have hkk : ¬ k = k' := fun hh => h hh.symm
  induction d with
  | nil => simp [dget, dset, hkk]
  | cons p rest ih =>
    obtain ⟨k₀, v₀⟩ := p
    by_cases h0 : k₀ = k
    · subst h0
      simp [dget, dset, hkk]
    · simp [dget, dset, h0, ih]

theorem dget_dpop_self (d : List (Int × Ref)) (k : Int) :
    dget (dpop d k) k = none := by
  induction d with
  | nil => simp [dget, dpop]
  | cons p rest ih =>
    obtain ⟨k', v'⟩ := p
    by_cases h : k' = k <;> simp [dget, dpop, h, ih]

theorem dget_dpop_ne (d : List (Int × Ref)) (k k' : Int) (h : k' ≠ k) :
    dget (dpop d k) k' = dget d k' := by
  have hkk : ¬ k = k' := fun hh => h hh.symm
  induction d with
  | nil => simp [dget, dpop]
  | cons p rest ih =>
    obtain ⟨k₀, v₀⟩ := p
    by_cases h0 : k₀ = k
    · subst h0
      simp [dget, dpop, hkk, ih]
    · simp [dget, dpop, h0, ih]

theorem heap_get_set_self (h : List ReviewObj) (r : Ref) (o x : ReviewObj)
    (hx : h[r]? = some x) : (h.set r o)[r]? = some o := by
  have hl : r < h.length := by
    have := List.get?_eq_some.mp (by simpa [List.get?_eq_getElem?] using hx)
    exact this.choose
  simp [List.getElem?_set_self, hl]

theorem heap_get_set_ne (h : List ReviewObj) (r r' : Ref) (o : ReviewObj)
    (hne : r ≠ r') : (h.set r o)[r']? = h[r']? := by
  simp [List.getElem?_set_ne hne]

/-! ### The setters: exact characterisations -/

/-- `validYearB`, `validSummaryB`, `validEmpB` restate precisely the tests
the setters perform, so each setter succeeds exactly on the valid values
and stores the value verbatim. -/
theorem set_id_eq_ok (v : PyVal) (o o' : ReviewObj) (h : set_id v o = .ok o') :
    o' = { o with _id := v } := by
  cases v <;> simp_all [set_id]

theorem set_id_vInt (n : Int) (o : ReviewObj) :
    set_id (.vInt n) o = .ok { o with _id := .vInt n } := rfl

theorem set_id_vNone (o : ReviewObj) :
    set_id .vNone o = .ok { o with _id := .vNone } := rfl

theorem set_year_eq_ok (v : PyVal) (o o' : ReviewObj) (h : set_year v o = .ok o') :
    validYearB v = true ∧ o' = { o with _year := v } := by
  cases v with
  | vInt n =>
    by_cases hn : n < 2000 <;>
      simp_all [set_year, validYearB, Int.not_lt]
  | vStr s => simp_all [set_year]
  | vNone => simp_all [set_year]

theorem set_year_of_valid (v : PyVal) (o : ReviewObj) (h : validYearB v = true) :
    set_year v o = .ok { o with _year := v } := by
  cases v with
  | vInt n =>
    simp only [validYearB, decide_eq_true_eq] at h
    simp [set_year, Int.not_lt.mpr h]
  | vStr s => simp [validYearB] at h
  | vNone => simp [validYearB] at h

theorem set_year_of_invalid (v : PyVal) (o : ReviewObj) (h : validYearB v = false) :
    set_year v o = .error (yearErrFor v) := by
  cases v with
  | vInt n =>
    simp only [validYearB, decide_eq_false_iff_not, Int.not_le] at h
    simp [set_year, yearErrFor, h]
  | vStr s => simp [set_year, yearErrFor]
  | vNone => simp [set_year, yearErrFor]

theorem set_summary_eq_ok (v : PyVal) (o o' : ReviewObj) (h : set_summary v o = .ok o') :
    validSummaryB v = true ∧ o' = { o with _summary := v } := by
  cases v with
  | vStr s =>
    by_cases hs : pyStrip s = "" <;> simp_all [set_summary, validSummaryB]
  | vInt n => simp_all [set_summary]
  | vNone => simp_all [set_summary]

theorem set_summary_of_valid (v : PyVal) (o : ReviewObj) (h : validSummaryB v = true) :
    set_summary v o = .ok { o with _summary := v } := by
  cases v with
  | vStr s =>
    simp only [validSummaryB, Bool.not_eq_true', decide_eq_false_iff_not] at h
    simp [set_summary, h]
  | vInt n => simp [validSummaryB] at h
  | vNone => simp [validSummaryB] at h

theorem set_summary_of_invalid (v : PyVal) (o : ReviewObj) (h : validSummaryB v = false) :
    set_summary v o = .error summaryErr := by
  cases v with
  | vStr s =>
    simp only [validSummaryB, Bool.not_eq_false', decide_eq_true_eq] at h
    simp [set_summary, h]
  | vInt n => simp [set_summary]
  | vNone => simp [set_summary]

theorem set_employee_id_eq_ok (db : DB) (v : PyVal) (o o' : ReviewObj)
    (h : set_employee_id db v o = .ok o') :
    validEmpB db.employees v = true ∧ o' = { o with _employee_id := v } := by
  cases v with
  | vInt n =>
    by_cases hn : db.employees.contains n <;>
      simp_all [set_employee_id, validEmpB]
  | vStr s => simp_all [set_employee_id]
  | vNone => simp_all [set_employee_id]

theorem set_employee_id_of_valid (db : DB) (v : PyVal) (o : ReviewObj)
    (h : validEmpB db.employees v = true) :
    set_employee_id db v o = .ok { o with _employee_id := v } := by
  cases v with
  | vInt n =>
    simp only [validEmpB] at h
    have h' : n ∈ db.employees := by simpa using h
    simp [set_employee_id, h']
  | vStr s => simp [validEmpB] at h
  | vNone => simp [validEmpB] at h

theorem set_employee_id_of_invalid (db : DB) (v : PyVal) (o : ReviewObj)
    (h : validEmpB db.employees v = false) :
    set_employee_id db v o = .error (empErrFor v) := by
  cases v with
  | vInt n =>
    simp only [validEmpB] at h
    have h' : ¬ n ∈ db.employees := by simpa using h
    simp [set_employee_id, empErrFor, h']
  | vStr s => simp [set_employee_id, empErrFor]
  | vNone => simp [set_employee_id, empErrFor]

/-! ### The constructor: exact characterisation -/

theorem reviewInit_eq_ok (db : DB) (y sm e i : PyVal) (o : ReviewObj)
    (h : reviewInit db y sm e i = .ok o) :
    o = ⟨i, y, sm, e⟩ ∧ validYearB y = true ∧ validSummaryB sm = true ∧
      validEmpB db.employees e = true := by
  unfold reviewInit at h
  cases h1 : set_id i ⟨.vNone, .vNone, .vNone, .vNone⟩ with
  | error e1 => simp [h1] at h
  | ok o1 =>
    have e1 := set_id_eq_ok _ _ _ h1
    simp only [h1] at h
    cases h2 : set_year y o1 with
    | error e2 => simp [h2] at h
    | ok o2 =>
      have e2 := set_year_eq_ok _ _ _ h2
      simp only [h2] at h
      cases h3 : set_summary sm o2 with
      | error e3 => simp [h3] at h
      | ok o3 =>
        have e3 := set_summary_eq_ok _ _ _ h3
        simp only [h3] at h
        have e4 := set_employee_id_eq_ok db _ _ _ h
        subst e1
        obtain ⟨hv2, rfl⟩ := e2
        obtain ⟨hv3, rfl⟩ := e3
        obtain ⟨hv4, rfl⟩ := e4
        exact ⟨rfl, hv2, hv3, hv4⟩

theorem reviewInit_of_valid (db : DB) (y sm e i : PyVal)
    (hi : i = .vNone ∨ ∃ n, i = .vInt n)
    (hy : validYearB y = true) (hs : validSummaryB sm = true)
    (he : validEmpB db.employees e = true) :
    reviewInit db y sm e i = .ok ⟨i, y, sm, e⟩ := by
  have h1 : set_id i ⟨.vNone, .vNone, .vNone, .vNone⟩ =
      .ok ⟨i, .vNone, .vNone, .vNone⟩ := by
    rcases hi with rfl | ⟨n, rfl⟩ <;> rfl
  simp only [reviewInit, h1, set_year_of_valid, set_summary_of_valid,
    set_employee_id_of_valid, hy, hs, he]

theorem reviewInit_year_err (db : DB) (y sm e i : PyVal)
    (hi : i = .vNone ∨ ∃ n, i = .vInt n) (hy : validYearB y = false) :
    reviewInit db y sm e i = .error (yearErrFor y) := by
  have h1 : set_id i ⟨.vNone, .vNone, .vNone, .vNone⟩ =
      .ok ⟨i, .vNone, .vNone, .vNone⟩ := by
    rcases hi with rfl | ⟨n, rfl⟩ <;> rfl
  simp only [reviewInit, h1, set_year_of_invalid, hy]

theorem reviewInit_summary_err (db : DB) (y sm e i : PyVal)
    (hi : i = .vNone ∨ ∃ n, i = .vInt n)
    (hy : validYearB y = true) (hs : validSummaryB sm = false) :
    reviewInit db y sm e i = .error summaryErr := by
  have h1 : set_id i ⟨.vNone, .vNone, .vNone, .vNone⟩ =
      .ok ⟨i, .vNone, .vNone, .vNone⟩ := by
    rcases hi with rfl | ⟨n, rfl⟩ <;> rfl
  simp only [reviewInit, h1, set_year_of_valid, hy, set_summary_of_invalid, hs]

theorem reviewInit_emp_err (db : DB) (y sm e i : PyVal)
    (hi : i = .vNone ∨ ∃ n, i = .vInt n)
    (hy : validYearB y = true) (hs : validSummaryB sm = true)
    (he : validEmpB db.employees e = false) :
    reviewInit db y sm e i = .error (empErrFor e) := by
  have h1 : set_id i ⟨.vNone, .vNone, .vNone, .vNone⟩ =
      .ok ⟨i, .vNone, .vNone, .vNone⟩ := by
    rcases hi with rfl | ⟨n, rfl⟩ <;> rfl
  simp only [reviewInit, h1, set_year_of_valid, hy, set_summary_of_valid, hs,
    set_employee_id_of_invalid, he]

/-! ### Preservation of validity by every API operation -/

theorem stateValid_iff (s : State) :
    stateValid s = true ↔
      (∀ o ∈ s.heap, objValid s.db.employees o = true) ∧
      (∀ r ∈ s.db.reviews, rowValid s.db.employees r = true) := by
  simp [stateValid, List.all_eq_true]

theorem objValid_of_fields (emps : List Int) (o : ReviewObj)
    (hy : validYearB o._year = true) (hs : validSummaryB o._summary = true)
    (he : validEmpB emps o._employee_id = true) : objValid emps o = true := by
  simp [objValid, hy, hs, he]

theorem objValid_set_id_field (emps : List Int) (o : ReviewObj) (v : PyVal) :
    objValid emps { o with _id := v } = objValid emps o := rfl

theorem objValid_refresh (emps : List Int) (o : ReviewObj) (r : Row)
    (h : rowValid emps r = true) :
    objValid emps
      { o with _year := r.year, _summary := r.summary, _employee_id := r.employee_id }
      = true := by
  simpa [objValid, rowValid] using h

theorem rowValid_of_obj (emps : List Int) (o : ReviewObj) (n : Int)
    (h : objValid emps o = true) :
    rowValid emps ⟨n, o._year, o._summary, o._employee_id⟩ = true := by
  simpa [objValid, rowValid] using h

theorem instance_from_db_db (row : Row) (s : State) :
    (instance_from_db row s).2.db = s.db := by
  unfold instance_from_db
  cases h1 : dget s.cache row.id with
  | some ref => cases h2 : s.heap[ref]? <;> simp [h2]
  | none =>
    cases h3 : reviewInit s.db row.year row.summary row.employee_id (.vInt row.id) <;>
      simp [h3]

theorem instance_from_db_valid (row : Row) (s : State)
    (hrow : rowValid s.db.employees row = true) (hs : stateValid s = true) :
    stateValid (instance_from_db row s).2 = true := by
  rw [stateValid_iff] at hs
  obtain ⟨hheap, hrows⟩ := hs
  unfold instance_from_db
  cases h1 : dget s.cache row.id with
  | some ref =>
    cases h2 : s.heap[ref]? with
    | none =>
      simp only [h2]
      exact (stateValid_iff s).mpr ⟨hheap, hrows⟩
    | some obj =>
      simp only [h2]
      rw [stateValid_iff]
      refine ⟨?_, by simpa using hrows⟩
      intro o ho
      simp only [] at ho
      rcases List.mem_or_eq_of_mem_set ho with hmem | rfl
      · exact hheap o hmem
      · exact objValid_refresh _ obj row hrow
  | none =>
    cases h3 : reviewInit s.db row.year row.summary row.employee_id (.vInt row.id) with
    | error e =>
      simp only [h3]
      exact (stateValid_iff s).mpr ⟨hheap, hrows⟩
    | ok obj =>
      simp only [h3]
      obtain ⟨rfl, hy, hsm, he⟩ := reviewInit_eq_ok _ _ _ _ _ _ h3
      rw [stateValid_iff]
      refine ⟨?_, by simpa using hrows⟩
      intro o ho
      simp only [List.mem_append, List.mem_singleton] at ho
      rcases ho with hmem | rfl
      · exact hheap o hmem
      · exact objValid_of_fields _ _ hy hsm he

theorem objValid_after_set_id (emps : List Int) (o o' : ReviewObj) (v : PyVal)
    (h : set_id v o = .ok o') (ho : objValid emps o = true) :
    objValid emps o' = true := by
  have he := set_id_eq_ok v o o' h
  subst he
  simpa [objValid] using ho

theorem objValid_after_set_year (emps : List Int) (o o' : ReviewObj) (v : PyVal)
    (h : set_year v o = .ok o') (ho : objValid emps o = true) :
    objValid emps o' = true := by
  obtain ⟨hv, he⟩ := set_year_eq_ok v o o' h
  subst he
  simp only [objValid] at ho ⊢
  simp_all

theorem objValid_after_set_summary (emps : List Int) (o o' : ReviewObj) (v : PyVal)
    (h : set_summary v o = .ok o') (ho : objValid emps o = true) :
    objValid emps o' = true := by
  obtain ⟨hv, he⟩ := set_summary_eq_ok v o o' h
  subst he
  simp only [objValid] at ho ⊢
  simp_all

theorem objValid_after_set_employee_id (db : DB) (o o' : ReviewObj) (v : PyVal)
    (h : set_employee_id db v o = .ok o') (ho : objValid db.employees o = true) :
    objValid db.employees o' = true := by
  obtain ⟨hv, he⟩ := set_employee_id_eq_ok db v o o' h
  subst he
  simp only [objValid] at ho ⊢
  simp_all

theorem newOp_valid (y sm e i : PyVal) (s : State) (hs : stateValid s = true) :
    stateValid (newOp y sm e i s).2 = true ∧ (newOp y sm e i s).2.db = s.db := by
  unfold newOp
  cases h : reviewInit s.db y sm e i with
  | error er => simp [h, hs]
  | ok obj =>
    obtain ⟨rfl, hy, hsm, he⟩ := reviewInit_eq_ok _ _ _ _ _ _ h
    simp only [h]
    refine ⟨?_, by trivial⟩
    rw [stateValid_iff] at hs ⊢
    obtain ⟨hheap, hrows⟩ := hs
    refine ⟨?_, by simpa using hrows⟩
    intro o ho
    simp only [List.mem_append, List.mem_singleton] at ho
    rcases ho with hmem | rfl
    · exact hheap o hmem
    · exact objValid_of_fields _ _ hy hsm he

theorem save_valid (ref : Ref) (s : State) (hs : stateValid s = true) :
    stateValid (save ref s).2 = true ∧ (save ref s).2.db.employees = s.db.employees := by
  unfold save
  cases h : s.heap[ref]? with
  | none => simp [h, hs]
  | some obj =>
    by_cases hid : obj._id = PyVal.vNone
    · have hm : obj ∈ s.heap :=
        List.get?_mem (by simpa [List.get?_eq_getElem?] using h)
      have hobj : objValid s.db.employees obj = true :=
        ((stateValid_iff s).mp hs).1 obj hm
      simp only [h, hid, if_true, set_id]
      refine ⟨?_, by trivial⟩
      rw [stateValid_iff] at hs ⊢
      obtain ⟨hheap, hrows⟩ := hs
      constructor
      · intro o ho
        rcases List.mem_or_eq_of_mem_set ho with hmem | heq
        · exact hheap o hmem
        · subst heq
          simpa [objValid] using hobj
      · intro r hr
        simp only [List.mem_append, List.mem_singleton] at hr
        rcases hr with hmem | rfl
        · exact hrows r hmem
        · exact rowValid_of_obj _ obj _ hobj
    · simp [h, hid, hs]

theorem createOp_valid (y sm e : PyVal) (s : State) (hs : stateValid s = true) :
    stateValid (createOp y sm e s).2 = true ∧
      (createOp y sm e s).2.db.employees = s.db.employees := by
  have hnew := newOp_valid y sm e .vNone s hs
  unfold createOp
  rcases h : newOp y sm e .vNone s with ⟨res, s'⟩
  rw [h] at hnew
  cases res with
  | error er => simpa using ⟨hnew.1, by rw [hnew.2]⟩
  | ok ref =>
    have hsave := save_valid ref s' hnew.1
    simpa using ⟨hsave.1, by rw [hsave.2, hnew.2]⟩

theorem find_by_id_valid (k : Int) (s : State) (hs : stateValid s = true) :
    stateValid (find_by_id k s).2 = true ∧ (find_by_id k s).2.db = s.db := by
  unfold find_by_id
  cases h : s.db.reviews.find? (fun row => row.id = k) with
  | none => simp [h, hs]
  | some row =>
    have hmem : row ∈ s.db.reviews := List.mem_of_find?_eq_some h
    have hrow : rowValid s.db.employees row = true :=
      ((stateValid_iff s).mp hs).2 row hmem
    have h1 := instance_from_db_valid row s hrow hs
    have h2 := instance_from_db_db row s
    rcases h3 : instance_from_db row s with ⟨res, s'⟩
    rw [h3] at h1 h2
    cases res with
    | error e => simpa [h, h3] using ⟨h1, h2⟩
    | ok ref => simpa [h, h3] using ⟨h1, h2⟩

theorem update_valid (ref : Ref) (s : State) (hs : stateValid s = true) :
    stateValid (update ref s).2 = true ∧
      (update ref s).2.db.employees = s.db.employees := by
  unfold update
  cases h : s.heap[ref]? with
  | none => simp [h, hs]
  | some obj =>
    have hm : obj ∈ s.heap :=
      List.get?_mem (by simpa [List.get?_eq_getElem?] using h)
    have hobj : objValid s.db.employees obj = true :=
      ((stateValid_iff s).mp hs).1 obj hm
    have hrowsmap : ∀ idv : PyVal,
        ∀ r ∈ s.db.reviews.map (fun row =>
          if PyVal.vInt row.id = idv then
            { row with year := obj._year, summary := obj._summary,
                       employee_id := obj._employee_id }
          else row), rowValid s.db.employees r = true := by
      intro idv r hr
      rw [List.mem_map] at hr
      obtain ⟨r0, hr0, rfl⟩ := hr
      by_cases hc : PyVal.vInt r0.id = idv
      · simp only [hc, if_true]
        exact rowValid_of_obj _ obj _ hobj
      · simp only [hc, if_false]
        exact ((stateValid_iff s).mp hs).2 r0 hr0
    cases hid : obj._id with
    | vNone => simp [h, hid, hs]
    | vInt n =>
      simp only [h, hid]
      refine ⟨?_, by trivial⟩
      rw [stateValid_iff]
      exact ⟨((stateValid_iff s).mp hs).1, hrowsmap (.vInt n)⟩
    | vStr s0 =>
      simp only [h, hid]
      refine ⟨?_, by trivial⟩
      rw [stateValid_iff]
      exact ⟨((stateValid_iff s).mp hs).1, hrowsmap (.vStr s0)⟩

theorem delete_valid (ref : Ref) (s : State) (hs : stateValid s = true) :
    stateValid (delete ref s).2 = true ∧
      (delete ref s).2.db.employees = s.db.employees := by
  unfold delete
  cases h : s.heap[ref]? with
  | none => simp [h, hs]
  | some obj =>
    have hm : obj ∈ s.heap :=
      List.get?_mem (by simpa [List.get?_eq_getElem?] using h)
    have hobj : objValid s.db.employees obj = true :=
      ((stateValid_iff s).mp hs).1 obj hm
    have hcore : ∀ idv : PyVal,
        (∀ o ∈ s.heap.set ref { obj with _id := PyVal.vNone },
          objValid s.db.employees o = true) ∧
        (∀ r ∈ s.db.reviews.filter (fun row => ¬ PyVal.vInt row.id = idv),
          rowValid s.db.employees r = true) := by
      intro idv
      constructor
      · intro o ho
        rcases List.mem_or_eq_of_mem_set ho with hmem | heq
        · exact ((stateValid_iff s).mp hs).1 o hmem
        · subst heq
          simpa [objValid] using hobj
      · intro r hr
        exact ((stateValid_iff s).mp hs).2 r (List.mem_of_mem_filter hr)
    cases hid : obj._id with
    | vNone => simp [h, hid, hs]
    | vInt n =>
      simp only [h, hid, set_id]
      refine ⟨?_, by trivial⟩
      rw [stateValid_iff]
      exact hcore (.vInt n)
    | vStr s0 =>
      simp only [h, hid, set_id]
      refine ⟨?_, by trivial⟩
      rw [stateValid_iff]
      exact hcore (.vStr s0)

theorem hydrateRows_valid (rows : List Row) (s : State)
    (hrows : ∀ r ∈ rows, rowValid s.db.employees r = true)
    (hs : stateValid s = true) :
    stateValid (hydrateRows rows s).2 = true ∧ (hydrateRows rows s).2.db = s.db := by
  induction rows generalizing s with
  | nil => exact ⟨hs, rfl⟩
  | cons row rest ih =>
    have hrow := hrows row (List.mem_cons_self row rest)
    have h1 := instance_from_db_valid row s hrow hs
    have h2 := instance_from_db_db row s
    unfold hydrateRows
    rcases h3 : instance_from_db row s with ⟨res, s'⟩
    rw [h3] at h1 h2
    cases res with
    | error e => simpa [h3] using ⟨h1, h2⟩
    | ok ref =>
      have hrest : ∀ r ∈ rest, rowValid s'.db.employees r = true := by
        rw [h2]
        exact fun r hr => hrows r (List.mem_cons_of_mem _ hr)
      have h4 := ih s' hrest h1
      rcases h5 : hydrateRows rest s' with ⟨res2, s''⟩
      rw [h5] at h4
      cases res2 with
      | error e => simpa [h3, h5] using ⟨h4.1, by rw [h4.2, h2]⟩
      | ok refs => simpa [h3, h5] using ⟨h4.1, by rw [h4.2, h2]⟩

theorem get_all_valid (s : State) (hs : stateValid s = true) :
    stateValid (get_all s).2 = true ∧ (get_all s).2.db = s.db := by
  unfold get_all
  exact hydrateRows_valid s.db.reviews s
    (fun r hr => ((stateValid_iff s).mp hs).2 r hr) hs

theorem setterOp_valid (f : ReviewObj → Except PyErr ReviewObj) (ref : Ref) (s : State)
    (hf : ∀ o o', f o = .ok o' → objValid s.db.employees o = true →
      objValid s.db.employees o' = true)
    (hs : stateValid s = true) :
    stateValid (setterOp f ref s).2 = true ∧ (setterOp f ref s).2.db = s.db := by
  unfold setterOp
  cases h : s.heap[ref]? with
  | none => simp [h, hs]
  | some obj =>
    cases h2 : f obj with
    | error e => simp [h, h2, hs]
    | ok obj' =>
      simp only [h, h2]
      refine ⟨?_, by trivial⟩
      rw [stateValid_iff] at hs ⊢
      obtain ⟨hheap, hrows⟩ := hs
      refine ⟨?_, by simpa using hrows⟩
      intro o ho
      rcases List.mem_or_eq_of_mem_set ho with hmem | heq
      · exact hheap o hmem
      · subst heq
        have hm : obj ∈ s.heap :=
          List.get?_mem (by simpa [List.get?_eq_getElem?] using h)
        exact hf obj _ h2 (hheap obj hm)

theorem step_valid (op : Op) (s : State) (hs : stateValid s = true) :
    stateValid (step op s) = true ∧ (step op s).db.employees = s.db.employees := by
  cases op with
  | newR y sm e i =>
    have h := newOp_valid y sm e i s hs
    exact ⟨h.1, by rw [show (step (.newR y sm e i) s) = (newOp y sm e i s).2 from rfl, h.2]⟩
  | createR y sm e => exact createOp_valid y sm e s hs
  | saveR ref => exact save_valid ref s hs
  | findR k =>
    have h := find_by_id_valid k s hs
    exact ⟨h.1, by rw [show (step (.findR k) s) = (find_by_id k s).2 from rfl, h.2]⟩
  | updateR ref => exact update_valid ref s hs
  | deleteR ref => exact delete_valid ref s hs
  | getAllR =>
    have h := get_all_valid s hs
    exact ⟨h.1, by rw [show (step .getAllR s) = (get_all s).2 from rfl, h.2]⟩
  | setIdR ref v =>
    have h := setterOp_valid (set_id v) ref s
      (fun o o' h2 ho => objValid_after_set_id _ o o' v h2 ho) hs
    exact ⟨h.1, by rw [show (step (.setIdR ref v) s) = (setterOp (set_id v) ref s).2 from rfl, h.2]⟩
  | setYearR ref v =>
    have h := setterOp_valid (set_year v) ref s
      (fun o o' h2 ho => objValid_after_set_year _ o o' v h2 ho) hs
    exact ⟨h.1, by rw [show (step (.setYearR ref v) s) = (setterOp (set_year v) ref s).2 from rfl, h.2]⟩
  | setSummaryR ref v =>
    have h := setterOp_valid (set_summary v) ref s
      (fun o o' h2 ho => objValid_after_set_summary _ o o' v h2 ho) hs
    exact ⟨h.1, by rw [show (step (.setSummaryR ref v) s) = (setterOp (set_summary v) ref s).2 from rfl, h.2]⟩
  | setEmpR ref v =>
    have h := setterOp_valid (set_employee_id s.db v) ref s
      (fun o o' h2 ho => objValid_after_set_employee_id s.db o o' v h2 ho) hs
    exact ⟨h.1, by rw [show (step (.setEmpR ref v) s) = (setterOp (set_employee_id s.db v) ref s).2 from rfl, h.2]⟩

theorem run_valid (ops : List Op) (s : State) (hs : stateValid s = true) :
    stateValid (run ops s) = true ∧ (run ops s).db.employees = s.db.employees := by
  induction ops generalizing s with
  | nil => exact ⟨hs, rfl⟩
  | cons op rest ih =>
    have h1 := step_valid op s hs
    have h2 := ih (step op s) h1.1
    exact ⟨h2.1, by rw [show run (op :: rest) s = run rest (step op s) from rfl, h2.2, h1.2]⟩

/-! ### Exact characterisations of the CRUD operations -/

/-- `isinstance(value, int)` as the setters test it. -/
def isIntV (v : PyVal) : Bool :=
  match v with
  | .vInt _ => true
  | _ => false

theorem save_eq_noop (s : State) (ref : Ref) (obj : ReviewObj)
    (hh : s.heap[ref]? = some obj) (hid : ¬ obj._id = PyVal.vNone) :
    save ref s = (.ok ref, s) := by
  unfold save
  simp only [hh, if_neg hid]

theorem save_eq_insert (s : State) (ref : Ref) (obj : ReviewObj)
    (hh : s.heap[ref]? = some obj) (hid : obj._id = PyVal.vNone) :
    save ref s = (.ok ref,
      { s with
        heap := s.heap.set ref { obj with _id := .vInt (nextRowId s.db.reviews) },
        cache := dset s.cache (nextRowId s.db.reviews) ref,
        db := { s.db with reviews := s.db.reviews ++
          [⟨nextRowId s.db.reviews, obj._year, obj._summary, obj._employee_id⟩] } }) := by
  unfold save
  simp only [hh, hid, if_true, set_id]

theorem delete_eq_noop (s : State) (ref : Ref) (obj : ReviewObj)
    (hh : s.heap[ref]? = some obj) (hid : obj._id = PyVal.vNone) :
    delete ref s = (.ok (), s) := by
  unfold delete
  simp only [hh, hid]

theorem delete_eq_remove (s : State) (ref : Ref) (obj : ReviewObj) (n : Int)
    (hh : s.heap[ref]? = some obj) (hid : obj._id = .vInt n) :
    delete ref s = (.ok (),
      { s with
        heap := s.heap.set ref { obj with _id := PyVal.vNone },
        cache := dpop s.cache n,
        db := { s.db with reviews :=
          s.db.reviews.filter (fun row => ¬ row.id = n) } }) := by
  unfold delete
  simp only [hh, hid, set_id]
  congr 2
  congr 1
  apply List.filter_congr
  intro row hrow
  simp

theorem update_eq_err (s : State) (ref : Ref) (obj : ReviewObj)
    (hh : s.heap[ref]? = some obj) (hid : obj._id = PyVal.vNone) :
    update ref s = (.error updateStateErr, s) := by
  unfold update
  simp only [hh, hid]

theorem update_eq_write (s : State) (ref : Ref) (obj : ReviewObj) (n : Int)
    (hh : s.heap[ref]? = some obj) (hid : obj._id = .vInt n) :
    update ref s = (.ok (),
      { s with
        cache := dset s.cache n ref,
        db := { s.db with reviews := s.db.reviews.map (fun row =>
          if row.id = n then
            { row with year := obj._year, summary := obj._summary,
                       employee_id := obj._employee_id }
          else row) } }) := by
  unfold update
  simp only [hh, hid]
  congr 3
  apply List.map_congr_left
  intro row hrow
  simp

theorem instance_from_db_cached (row : Row) (s : State) (r : Ref) (obj : ReviewObj)
    (hc : dget s.cache row.id = some r) (hh : s.heap[r]? = some obj) :
    instance_from_db row s =
      (.ok r, { s with heap := s.heap.set r ⟨obj._id, row.year, row.summary, row.employee_id⟩ }) := by
  unfold instance_from_db
  simp only [hc, hh]

theorem instance_from_db_uncached_err (row : Row) (s : State) (err : PyErr)
    (hc : dget s.cache row.id = none)
    (hinit : reviewInit s.db row.year row.summary row.employee_id (.vInt row.id)
      = .error err) :
    instance_from_db row s = (.error err, s) := by
  unfold instance_from_db
  simp only [hc, hinit]

theorem find_by_id_eq_found (k : Int) (s : State) (row : Row)
    (hrow : s.db.reviews.find? (fun rw => rw.id = k) = some row) :
    find_by_id k s = (match instance_from_db row s with
      | (.error e, s') => (.error e, s')
      | (.ok ref, s') => (.ok (some ref), s')) := by
  unfold find_by_id
  simp only [hrow]

theorem find_by_id_eq_none (k : Int) (s : State)
    (hrow : s.db.reviews.find? (fun rw => rw.id = k) = none) :
    find_by_id k s = (.ok none, s) := by
  unfold find_by_id
  simp only [hrow]

theorem createOp_of_init_err (s : State) (y sm e : PyVal) (err : PyErr)
    (h : reviewInit s.db y sm e .vNone = .error err) :
    createOp y sm e s = (.error err, s) := by
  unfold createOp newOp
  simp only [h]

theorem le_fold_max (rows : List Row) (r : Row) (h : r ∈ rows) :
    r.id ≤ rows.foldr (fun x m => max x.id m) 0 := by
  induction rows with
  | nil => cases h
  | cons a rest ih =>
    rcases List.mem_cons.mp h with rfl | hmem
    · exact le_max_left _ _
    · exact le_trans (ih hmem) (le_max_right _ _)

theorem nextRowId_gt_mem (rows : List Row) (r : Row) (h : r ∈ rows) :
    r.id < nextRowId rows := by
  unfold nextRowId
  exact lt_of_le_of_lt (le_fold_max rows r h) (by omega)

/-! ### The claims -/

/-- C1: for an id already present in the identity cache (with a matching
row in storage), `find_by_id` returns the very same cached object
reference; the fetch overwrites that object's `_year`, `_summary` and
`_employee_id` with the values just read from storage (cache-refresh,
not cache-ignore) while leaving the cache entry and the database
untouched; and a second successive call returns the same reference
again. -/
theorem c1_identity_cache_refresh (s : State) (k : Int) (r : Ref)
    (obj : ReviewObj) (row : Row)
    (hc : dget s.cache k = some r) (hh : s.heap[r]? = some obj)
    (hrow : s.db.reviews.find? (fun rw => rw.id = k) = some row) :
    (find_by_id k s).1 = .ok (some r) ∧
    (find_by_id k s).2.heap[r]? =
      some ⟨obj._id, row.year, row.summary, row.employee_id⟩ ∧
    (find_by_id k s).2.cache = s.cache ∧
    (find_by_id k s).2.db = s.db ∧
    (find_by_id k ((find_by_id k s).2)).1 = .ok (some r) := by
  have hk : row.id = k := by
    have h := List.find?_some hrow
    simpa using h
  have hc' : dget s.cache row.id = some r := by rw [hk]; exact hc
  have h1 := instance_from_db_cached row s r obj hc' hh
  have h2 : find_by_id k s =
      (.ok (some r), { s with heap := s.heap.set r ⟨obj._id, row.year, row.summary, row.employee_id⟩ }) := by
    rw [find_by_id_eq_found k s row hrow, h1]
  have hh' : (s.heap.set r ⟨obj._id, row.year, row.summary, row.employee_id⟩)[r]? =
      some ⟨obj._id, row.year, row.summary, row.employee_id⟩ :=
    heap_get_set_self s.heap r _ obj hh
  refine ⟨by rw [h2], by rw [h2]; exact hh', by rw [h2], by rw [h2], ?_⟩
  rw [h2]
  have h3 := instance_from_db_cached row
    { s with heap := s.heap.set r ⟨obj._id, row.year, row.summary, row.employee_id⟩ }
    r ⟨obj._id, row.year, row.summary, row.employee_id⟩ hc' hh'
  have h4 := find_by_id_eq_found k
    { s with heap := s.heap.set r ⟨obj._id, row.year, row.summary, row.employee_id⟩ }
    row hrow
  rw [h3] at h4
  rw [h4]

/-- C3: `update` on an instance whose id is `None` raises the
"cannot update a Review without an id" error — an error distinct from
every error the validating setters can raise — and leaves the whole
state, in particular every row, unchanged; on an instance with id `n`
it overwrites the rows with id `n` with the instance's current field
values and re-registers the instance in the cache under `n`. -/
theorem c3_update_requires_id (s : State) (ref : Ref) (obj : ReviewObj)
    (hh : s.heap[ref]? = some obj) :
    (obj._id = PyVal.vNone →
      update ref s = (.error updateStateErr, s) ∧
      updateStateErr ≠ idTypeErr ∧ updateStateErr ≠ yearTypeErr ∧
      updateStateErr ≠ yearRangeErr ∧ updateStateErr ≠ summaryErr ∧
      updateStateErr ≠ empTypeErr ∧ updateStateErr ≠ empRefErr) ∧
    (∀ n : Int, obj._id = .vInt n →
      update ref s = (.ok (),
        { s with
          cache := dset s.cache n ref,
          db := { s.db with reviews := s.db.reviews.map (fun row =>
            if row.id = n then
              { row with year := obj._year, summary := obj._summary,
                         employee_id := obj._employee_id }
            else row) } }) ∧
      dget (dset s.cache n ref) n = some ref) := by
  constructor
  · intro hid
    exact ⟨update_eq_err s ref obj hh hid,
      by decide, by decide, by decide, by decide, by decide, by decide⟩
  · intro n hid
    exact ⟨update_eq_write s ref obj n hh hid, dget_dset_self _ _ _⟩

/-- C4: the `employee_id` setter raises the "must be an integer" error
for every non-integer value, and the distinct "must reference a
persisted Employee" error for an integer with no matching row in the
`employees` table; the existence check is the synchronous lookup the
setter itself performs at assignment time. -/
theorem c4_employee_id_setter_errors (db : DB) (o : ReviewObj) (v : PyVal) :
    (isIntV v = false → set_employee_id db v o = .error empTypeErr) ∧
    (∀ n : Int, v = .vInt n → db.employees.contains n = false →
      set_employee_id db v o = .error empRefErr) ∧
    empTypeErr ≠ empRefErr := by
  refine ⟨?_, ?_, by decide⟩
  · intro h
    cases v with
    | vInt n => simp [isIntV] at h
    | vStr t => rfl
    | vNone => rfl
  · rintro n rfl h
    have h' : ¬ n ∈ db.employees := by simpa using h
    simp [set_employee_id, h']

/-- C5: `save` on an instance whose id is already non-None is a strict
no-op: it returns the instance and leaves the entire state — rows,
cache and heap — unchanged (insert-only, not an upsert). -/
theorem c5_save_noop_when_persisted (s : State) (ref : Ref) (obj : ReviewObj)
    (hh : s.heap[ref]? = some obj) (hid : ¬ obj._id = PyVal.vNone) :
    save ref s = (.ok ref, s) :=
  save_eq_noop s ref obj hh hid

/-- C6: `delete` on an unpersisted instance returns without error and
touches neither storage nor the cache; on an instance with id `n` it
removes the rows with id `n`, evicts `n` from the identity cache (a
subsequent cache lookup of `n` yields `none`), and resets the
instance's id to `None`. -/
theorem c6_delete_spec (s : State) (ref : Ref) (obj : ReviewObj)
    (hh : s.heap[ref]? = some obj) :
    (obj._id = PyVal.vNone → delete ref s = (.ok (), s)) ∧
    (∀ n : Int, obj._id = .vInt n →
      delete ref s = (.ok (),
        { s with
          heap := s.heap.set ref { obj with _id := PyVal.vNone },
          cache := dpop s.cache n,
          db := { s.db with reviews :=
            s.db.reviews.filter (fun row => ¬ row.id = n) } }) ∧
      dget (dpop s.cache n) n = none ∧
      (delete ref s).2.heap[ref]? = some { obj with _id := PyVal.vNone }) := by
  constructor
  · exact fun hid => delete_eq_noop s ref obj hh hid
  · intro n hid
    have hd := delete_eq_remove s ref obj n hh hid
    refine ⟨hd, dget_dpop_self _ _, ?_⟩
    rw [hd]
    exact heap_get_set_self s.heap ref _ obj hh

/-- C10: the summary setter stores the assigned string verbatim —
trimming is used only as the non-emptiness test — so a summary with
leading or trailing whitespace is kept exactly as given, and `save`
persists that exact string into the inserted row. -/
theorem c10_summary_verbatim (o : ReviewObj) (t : String) (h : ¬ pyStrip t = "") :
    set_summary (.vStr t) o = .ok { o with _summary := .vStr t } ∧
    (∀ (s : State) (ref : Ref) (obj : ReviewObj), s.heap[ref]? = some obj →
      obj._id = PyVal.vNone → obj._summary = .vStr t →
      (save ref s).2.db.reviews = s.db.reviews ++
        [⟨nextRowId s.db.reviews, obj._year, .vStr t, obj._employee_id⟩]) := by
  constructor
  · unfold set_summary
    simp [h]
  · intro s ref obj hh hid hsum
    rw [save_eq_insert s ref obj hh hid, ← hsum]

/-- C2: starting from any state whose live instances and stored rows are
all valid, after any sequence of API calls every `Review` instance that
exists in memory still has a year that is an integer `>= 2000`, a
summary that is a string non-empty after stripping, and an employee_id
that is an integer present in the (unchanged) employees table:
validation at assignment time, together with refreshes taking their
values from rows that were themselves validated on insertion, keeps
every live instance valid. -/
theorem c2_fields_always_valid (ops : List Op) (s : State) (hs : stateValid s = true) :
    (∀ (ref : Ref) (obj : ReviewObj), (run ops s).heap[ref]? = some obj →
      validYearB obj._year = true ∧ validSummaryB obj._summary = true ∧
      validEmpB s.db.employees obj._employee_id = true) ∧
    (run ops s).db.employees = s.db.employees := by
  have h := run_valid ops s hs
  refine ⟨?_, h.2⟩
  intro ref obj hobj
  have hm : obj ∈ (run ops s).heap :=
    List.get?_mem (by simpa [List.get?_eq_getElem?] using hobj)
  have hv := ((stateValid_iff _).mp h.1).1 obj hm
  rw [h.2] at hv
  simp only [objValid, Bool.and_eq_true] at hv
  exact ⟨hv.1.1, hv.1.2, hv.2⟩

/-- C7 counterexample: with one employee and an empty reviews table,
`create` assigns id 1; `delete` empties the table; the subsequent
`save` on the same instance re-inserts it and sqlite hands out rowid 1
again — the freshly assigned id equals the original id `k = 1`, so it
is not distinct from it as the claim requires. -/
theorem c7_counterexample :
    ((createOp (.vInt 2020) (.vStr "good") (.vInt 1)
        (⟨[], [], ⟨[], [1]⟩⟩ : State)).2.heap[0]? =
      some ⟨.vInt 1, .vInt 2020, .vStr "good", .vInt 1⟩) ∧
    ((find_by_id 1 (delete 0 (createOp (.vInt 2020) (.vStr "good") (.vInt 1)
        (⟨[], [], ⟨[], [1]⟩⟩ : State)).2).2).1 = .ok none) ∧
    ((save 0 (delete 0 (createOp (.vInt 2020) (.vStr "good") (.vInt 1)
        (⟨[], [], ⟨[], [1]⟩⟩ : State)).2).2).2.heap[0]? =
      some ⟨.vInt 1, .vInt 2020, .vStr "good", .vInt 1⟩) := by
  refine ⟨by decide, by decide, by decide⟩

/-- C7 (amended): after `delete` on a persisted instance with id `k`,
`find_by_id k` returns the not-found signal; a subsequent `save` on the
same instance succeeds and re-inserts it under the id sqlite generates
for the post-delete table (one more than the largest remaining rowid).
That id is distinct from `k` whenever some row with id at least `k`
survives the delete, but it is *not* distinct in general: sqlite reuses
`k` itself when `k` was the largest rowid (see the counterexample). -/
theorem c7_delete_find_save (s : State) (ref : Ref) (obj : ReviewObj) (k : Int)
    (hh : s.heap[ref]? = some obj) (hid : obj._id = .vInt k) :
    (find_by_id k (delete ref s).2).1 = .ok none ∧
    (save ref (delete ref s).2).1 = .ok ref ∧
    (save ref (delete ref s).2).2.heap[ref]? =
      some { obj with _id := .vInt (nextRowId (delete ref s).2.db.reviews) } ∧
    (∀ r ∈ (delete ref s).2.db.reviews, k ≤ r.id →
      ¬ nextRowId (delete ref s).2.db.reviews = k) := by
  have hd := delete_eq_remove s ref obj k hh hid
  have hh2 : (delete ref s).2.heap[ref]? = some { obj with _id := PyVal.vNone } := by
    rw [hd]
    exact heap_get_set_self s.heap ref _ obj hh
  have hfind : (delete ref s).2.db.reviews.find? (fun rw => rw.id = k) = none := by
    rw [hd]
    rw [List.find?_eq_none]
    intro x hx
    have hf := List.mem_filter.mp hx
    simpa using hf.2
  have hsave := save_eq_insert (delete ref s).2 ref { obj with _id := PyVal.vNone } hh2 rfl
  refine ⟨?_, ?_, ?_, ?_⟩
  · rw [find_by_id_eq_none _ _ hfind]
  · rw [hsave]
  · rw [hsave]
    exact heap_get_set_self _ ref _ _ hh2
  · intro r hr hkr
    have hlt := nextRowId_gt_mem _ r hr
    omega

/-- C8: `create` with a rejected argument triple raises the
corresponding validation error before any insert is issued, so the
state — in particular the reviews table — is returned unchanged: the
year error (range or type) when the year is invalid, the summary error
when the year is valid but the summary is not, and the employee error
(reference or type) when only the employee id is invalid. -/
theorem c8_create_rejects_without_insert (s : State) (y sm e : PyVal)
    (h : validYearB y = false ∨ validSummaryB sm = false ∨
      validEmpB s.db.employees e = false) :
    (∃ err, createOp y sm e s = (.error err, s)) ∧
    (validYearB y = false →
      createOp y sm e s = (.error (yearErrFor y), s)) ∧
    (validYearB y = true → validSummaryB sm = false →
      createOp y sm e s = (.error summaryErr, s)) ∧
    (validYearB y = true → validSummaryB sm = true →
      validEmpB s.db.employees e = false →
      createOp y sm e s = (.error (empErrFor e), s)) := by
  have hy : validYearB y = false →
      createOp y sm e s = (.error (yearErrFor y), s) :=
    fun hv => createOp_of_init_err s y sm e _
      (reviewInit_year_err s.db y sm e .vNone (Or.inl rfl) hv)
  have hsm : validYearB y = true → validSummaryB sm = false →
      createOp y sm e s = (.error summaryErr, s) :=
    fun hv1 hv2 => createOp_of_init_err s y sm e _
      (reviewInit_summary_err s.db y sm e .vNone (Or.inl rfl) hv1 hv2)
  have hemp : validYearB y = true → validSummaryB sm = true →
      validEmpB s.db.employees e = false →
      createOp y sm e s = (.error (empErrFor e), s) :=
    fun hv1 hv2 hv3 => createOp_of_init_err s y sm e _
      (reviewInit_emp_err s.db y sm e .vNone (Or.inl rfl) hv1 hv2 hv3)
  refine ⟨?_, hy, hsm, hemp⟩
  rcases h with hv | hv | hv
  · exact ⟨_, hy hv⟩
  · cases hY : validYearB y with
    | false => exact ⟨_, hy hY⟩
    | true => exact ⟨_, hsm hY hv⟩
  · cases hY : validYearB y with
    | false => exact ⟨_, hy hY⟩
    | true =>
      cases hS : validSummaryB sm with
      | false => exact ⟨_, hsm hY hS⟩
      | true => exact ⟨_, hemp hY hS hv⟩

/-- C9: hydrating a row whose id is not in the identity cache goes
through the full validating constructor — the employee_id setter
re-queries the employees table — so `find_by_id` (and `get_all`)
raises the employee reference error for a stored row whose referenced
employee no longer exists; hydrating the same row when its id is
already cached bypasses all validation: it succeeds and writes the
dangling employee id directly into the cached instance. -/
theorem c9_uncached_validates_cached_bypasses (s : State) (k : Int) (row : Row)
    (hrow : s.db.reviews.find? (fun rw => rw.id = k) = some row)
    (e0 : Int) (he : row.employee_id = .vInt e0)
    (hne : s.db.employees.contains e0 = false)
    (hy : validYearB row.year = true) (hsm : validSummaryB row.summary = true) :
    (dget s.cache row.id = none →
      find_by_id k s = (.error empRefErr, s) ∧
      (s.db.reviews = [row] → get_all s = (.error empRefErr, s))) ∧
    (∀ (r : Ref) (obj : ReviewObj),
      dget s.cache row.id = some r → s.heap[r]? = some obj →
      (find_by_id k s).1 = .ok (some r) ∧
      (find_by_id k s).2.heap[r]? =
        some ⟨obj._id, row.year, row.summary, row.employee_id⟩) := by
  have hvempty : validEmpB s.db.employees row.employee_id = false := by
    rw [he]
    simpa [validEmpB] using hne
  have hinit : reviewInit s.db row.year row.summary row.employee_id (.vInt row.id) =
      .error empRefErr := by
    have h := reviewInit_emp_err s.db row.year row.summary row.employee_id (.vInt row.id)
      (Or.inr ⟨row.id, rfl⟩) hy hsm hvempty
    have h2 : empErrFor row.employee_id = empRefErr := by rw [he]; rfl
    rw [h2] at h
    exact h
  constructor
  · intro hc
    have hifdb := instance_from_db_uncached_err row s empRefErr hc hinit
    constructor
    · rw [find_by_id_eq_found k s row hrow, hifdb]
    · intro hone
      unfold get_all
      rw [hone]
      simp only [hydrateRows, hifdb]
  · intro r obj hc hh
    have h1 := instance_from_db_cached row s r obj hc hh
    have h2 := find_by_id_eq_found k s row hrow
    rw [h1] at h2
    exact ⟨by rw [h2], by rw [h2]; exact heap_get_set_self s.heap r _ obj hh⟩

/-! ### Concrete instantiations of the theorems above -/

/-- A persisted instance: id 1, year 2020, summary "good", employee 1. -/
def objA : ReviewObj := ⟨.vInt 1, .vInt 2020, .vStr "good", .vInt 1⟩

/-- An unpersisted instance with valid fields. -/
def objU : ReviewObj := ⟨.vNone, .vInt 2020, .vStr "good", .vInt 1⟩

/-- A stored row for id 1 holding newer values than `objA`. -/
def rowA : Row := ⟨1, .vInt 2021, .vStr "revised", .vInt 2⟩

/-- A cached state: instance `objA` lives at reference 0 and is cached
under id 1, while the stored row for id 1 has moved on to `rowA`. -/
def sC1 : State := ⟨[objA], [(1, 0)], ⟨[rowA], [1, 2]⟩⟩

/-- An empty store with a single employee, id 1. -/
def sC2 : State := ⟨[], [], ⟨[], [1]⟩⟩

/-- Create a review, update it, and re-fetch it. -/
def opsC2 : List Op := [.createR (.vInt 2020) (.vStr "good") (.vInt 1), .updateR 0, .findR 1]

/-- A state holding an unpersisted instance (reference 0) and a
persisted one (reference 1, cached under id 1). -/
def sC3 : State := ⟨[objU, objA], [(1, 1)], ⟨[⟨1, .vInt 2020, .vStr "good", .vInt 1⟩], [1]⟩⟩

/-- A database whose employees table holds ids 1 and 2. -/
def dbC4 : DB := ⟨[], [1, 2]⟩

/-- A stored row referencing employee 7, who does not exist. -/
def rowC9 : Row := ⟨1, .vInt 2020, .vStr "good", .vInt 7⟩

/-- A state whose only stored row references a missing employee and
whose cache is empty. -/
def sC9 : State := ⟨[], [], ⟨[rowC9], [1]⟩⟩

/-- A state with two stored rows (ids 1 and 2) and the instance for
id 1 live at reference 0. -/
def sC7 : State :=
  ⟨[objA], [(1, 0)],
    ⟨[⟨1, .vInt 2020, .vStr "good", .vInt 1⟩, ⟨2, .vInt 2022, .vStr "later", .vInt 1⟩], [1]⟩⟩

/-- A state holding one unpersisted instance whose summary carries
surrounding whitespace. -/
def sC10 : State := ⟨[⟨.vNone, .vInt 2020, .vStr " padded ", .vInt 1⟩], [], ⟨[], [1]⟩⟩

/-- C1 at a concrete cached state: both fetches return reference 0 and
the instance now carries `rowA`'s values. -/
theorem c1_witness :
    dget sC1.cache 1 = some 0 ∧ sC1.heap[0]? = some objA ∧
    sC1.db.reviews.find? (fun rw => rw.id = 1) = some rowA ∧
    ((find_by_id 1 sC1).1 = .ok (some 0) ∧
      (find_by_id 1 sC1).2.heap[0]? =
        some ⟨objA._id, rowA.year, rowA.summary, rowA.employee_id⟩ ∧
      (find_by_id 1 sC1).2.cache = sC1.cache ∧
      (find_by_id 1 sC1).2.db = sC1.db ∧
      (find_by_id 1 ((find_by_id 1 sC1).2)).1 = .ok (some 0)) :=
  ⟨by decide, by decide, by decide,
    c1_identity_cache_refresh sC1 1 0 objA rowA (by decide) (by decide) (by decide)⟩

/-- C2 after create-update-find from an empty store: the live instance
satisfies all three constraints. -/
theorem c2_witness :
    stateValid sC2 = true ∧
    (run opsC2 sC2).heap[0]? = some objA ∧
    (validYearB objA._year = true ∧ validSummaryB objA._summary = true ∧
      validEmpB sC2.db.employees objA._employee_id = true) :=
  ⟨by decide, by decide,
    (c2_fields_always_valid opsC2 sC2 (by decide)).1 0 objA (by decide)⟩

/-- C3 on a concrete unpersisted instance: `update` raises the state
error, leaves the state unchanged, and that error differs from every
setter error. -/
theorem c3_witness :
    sC3.heap[0]? = some objU ∧
    (update 0 sC3 = (.error updateStateErr, sC3) ∧
      updateStateErr ≠ idTypeErr ∧ updateStateErr ≠ yearTypeErr ∧
      updateStateErr ≠ yearRangeErr ∧ updateStateErr ≠ summaryErr ∧
      updateStateErr ≠ empTypeErr ∧ updateStateErr ≠ empRefErr) :=
  ⟨by decide, (c3_update_requires_id sC3 0 objU (by decide)).1 (by decide)⟩

/-- C4 on concrete values: a string employee id gives the type error, a
missing employee 99 gives the reference error, and the two differ. -/
theorem c4_witness :
    isIntV (PyVal.vStr "boss") = false ∧
    set_employee_id dbC4 (.vStr "boss") objU = .error empTypeErr ∧
    dbC4.employees.contains 99 = false ∧
    set_employee_id dbC4 (.vInt 99) objU = .error empRefErr ∧
    empTypeErr ≠ empRefErr :=
  ⟨by decide,
    (c4_employee_id_setter_errors dbC4 objU (.vStr "boss")).1 (by decide),
    by decide,
    (c4_employee_id_setter_errors dbC4 objU (.vInt 99)).2.1 99 rfl (by decide),
    (c4_employee_id_setter_errors dbC4 objU (.vInt 99)).2.2⟩

/-- C5 on a concrete persisted instance: `save` returns it and the
state is bit-for-bit unchanged. -/
theorem c5_witness :
    sC3.heap[1]? = some objA ∧ ¬ objA._id = PyVal.vNone ∧
    save 1 sC3 = (.ok 1, sC3) :=
  ⟨by decide, by decide, c5_save_noop_when_persisted sC3 1 objA (by decide) (by decide)⟩

/-- C6 on a concrete persisted instance: `delete` removes the row,
evicts id 1 from the cache, and resets the instance's id. -/
theorem c6_witness :
    sC3.heap[1]? = some objA ∧ objA._id = PyVal.vInt 1 ∧
    (delete 1 sC3 = (.ok (),
      { sC3 with
        heap := sC3.heap.set 1 { objA with _id := PyVal.vNone },
        cache := dpop sC3.cache 1,
        db := { sC3.db with reviews :=
          sC3.db.reviews.filter (fun row => ¬ row.id = 1) } }) ∧
      dget (dpop sC3.cache 1) 1 = none ∧
      (delete 1 sC3).2.heap[1]? = some { objA with _id := PyVal.vNone }) :=
  ⟨by decide, by decide, (c6_delete_spec sC3 1 objA (by decide)).2 1 (by decide)⟩

/-- C7 (amended) on a concrete state where a row with a larger id
survives the delete: the re-inserted id (3) differs from the deleted
id (1). -/
theorem c7_witness :
    sC7.heap[0]? = some objA ∧ objA._id = PyVal.vInt 1 ∧
    (find_by_id 1 (delete 0 sC7).2).1 = .ok none ∧
    (save 0 (delete 0 sC7).2).1 = .ok 0 ∧
    (save 0 (delete 0 sC7).2).2.heap[0]? =
      some { objA with _id := .vInt (nextRowId (delete 0 sC7).2.db.reviews) } ∧
    ¬ nextRowId (delete 0 sC7).2.db.reviews = 1 := by
  have H := c7_delete_find_save sC7 0 objA 1 (by decide) (by decide)
  exact ⟨by decide, by decide, H.1, H.2.1, H.2.2.1,
    H.2.2.2 ⟨2, .vInt 2022, .vStr "later", .vInt 1⟩ (by decide) (by decide)⟩

/-- C8 on a concrete invalid year: `create` raises the year range
error and the empty store is unchanged. -/
theorem c8_witness :
    (validYearB (PyVal.vInt 1999) = false ∨ validSummaryB (PyVal.vStr "fine") = false ∨
      validEmpB sC2.db.employees (PyVal.vInt 1) = false) ∧
    validYearB (PyVal.vInt 1999) = false ∧
    createOp (.vInt 1999) (.vStr "fine") (.vInt 1) sC2 =
      (.error (yearErrFor (.vInt 1999)), sC2) :=
  ⟨Or.inl (by decide), by decide,
    (c8_create_rejects_without_insert sC2 (.vInt 1999) (.vStr "fine") (.vInt 1)
      (Or.inl (by decide))).2.1 (by decide)⟩

/-- C9 on a concrete stored row referencing missing employee 7 with an
empty cache: both `find_by_id` and `get_all` raise the reference
error. -/
theorem c9_witness :
    sC9.db.reviews.find? (fun rw => rw.id = 1) = some rowC9 ∧
    rowC9.employee_id = PyVal.vInt 7 ∧
    sC9.db.employees.contains 7 = false ∧
    validYearB rowC9.year = true ∧ validSummaryB rowC9.summary = true ∧
    dget sC9.cache rowC9.id = none ∧
    find_by_id 1 sC9 = (.error empRefErr, sC9) ∧
    get_all sC9 = (.error empRefErr, sC9) := by
  have H := c9_uncached_validates_cached_bypasses sC9 1 rowC9 (by decide) 7 (by decide)
    (by decide) (by decide) (by decide)
  have H1 := H.1 (by decide)
  exact ⟨by decide, by decide, by decide, by decide, by decide, by decide,
    H1.1, H1.2 (by decide)⟩

/-- C10 on a concrete padded summary: the setter stores it verbatim and
`save` persists the exact string. -/
theorem c10_witness :
    ¬ pyStrip " padded " = "" ∧
    set_summary (.vStr " padded ") objU = .ok { objU with _summary := .vStr " padded " } ∧
    (save 0 sC10).2.db.reviews = sC10.db.reviews ++
      [⟨nextRowId sC10.db.reviews, .vInt 2020, .vStr " padded ", .vInt 1⟩] := by
  have H := c10_summary_verbatim objU " padded " (by decide)
  exact ⟨by decide, H.1,
    H.2 sC10 0 ⟨.vNone, .vInt 2020, .vStr " padded ", .vInt 1⟩ (by decide) (by decide) (by decide)⟩

end ReviewOrm
